import Mathlib

set_option maxHeartbeats 1000000
set_option maxRecDepth 100000

/-!
# Verification of the Utah Digital Newspapers RAG chatbot's index and retrieval layer

This development shallowly embeds the indexing and retrieval orchestration code of
the repository (`src/vectorstore_faiss.py`, `src/vectorstore_lite.py`,
`src/rag_chatbot_faiss.py`, `src/ollama_processor.py`, `src/build_embeddings_full.py`,
`app.py`, `build_lite.py`) and proves properties of the embedded definitions.

Modelling conventions:
* Python strings are Lean `String`s (`len`, slicing and `strip` act on code points,
  matching Python semantics for the ASCII data handled here).
* numpy float vectors are `List ℚ`; only their shapes matter to the ingestion logic.
  `faiss.normalize_L2` rescales rows in place and never changes shapes or counts.
* The FAISS index itself is the external black box of the spec: `index.add` of an
  `n × d` batch raises `ntotal` by `n` and assigns the ids `ntotal, …, ntotal+n-1`;
  the model therefore tracks the list of added batch sizes.  `index.search` output
  (the `scores`/`indices` arrays) enters the query-time model as explicit inputs.
* SQLite's `documents` table is a `List` of row records; `INSERT` with a duplicate
  `idx` primary key raises `IntegrityError`, modelled with `Except`.
* Python exceptions of fallible steps are modelled by `Except`/`Option` results.
-/

deriving instance DecidableEq for Except

/-- One row of a chunk CSV as read with `pd.read_csv(..., dtype=str)`.
All fields are strings; a missing value reads as the empty string.
(Source: the CSV layout consumed by `_load_file_embeddings_and_meta` and
`build_lite.py`.) -/
structure CsvRow where
  id : String
  article_title : String
  date : String
  paper : String
  chunk_text : String
deriving Repr, DecidableEq

/-- One on-disk embedding/metadata pair: an `.npy` file in `emb_dir` plus its
paired CSV in `chunk_dir`.  `fileName` is the name listed in `emb_dir`;
`csvExists` models `os.path.exists(csv_path)`; `readable` models whether
`np.load` and `pd.read_csv` succeed (their exceptions are caught per file);
`embeddings` are the vectors of the `.npy`; `csvRows` the CSV rows. -/
structure SourceFile where
  fileName : String
  embeddings : List (List ℚ)
  csvExists : Bool
  readable : Bool
  csvRows : List CsvRow
deriving Repr, DecidableEq

/-- Lightweight per-chunk metadata built by `_load_file_embeddings_and_meta`
(no full text; `source_file` is the base name, `row_num` the row offset). -/
structure MetaRow where
  article_id : String
  article_title : String
  date : String
  paper : String
  source_file : String
  row_num : Nat
deriving Repr, DecidableEq

/-- A row of the SQLite `documents` table of the full store
(`idx INTEGER PRIMARY KEY` plus the metadata columns). -/
structure DbRow where
  idx : Nat
  article_id : String
  article_title : String
  date : String
  paper : String
  source_file : String
  row_num : Nat
deriving Repr, DecidableEq

/-- Python string slicing `s[:n]` (by code points). -/
def pyTake (n : Nat) (s : String) : String := String.mk (s.data.take n)

/-- Python's default `str.strip` whitespace class (ASCII part). -/
def isPySpace (c : Char) : Bool :=
  c = ' ' || c = '\t' || c = '\n' || c = '\r' || c = '\x0b' || c = '\x0c'

/-- Python `str.strip()`: drop leading and trailing whitespace. -/
def pyStrip (s : String) : String :=
  String.mk (((s.data.dropWhile isPySpace).reverse.dropWhile isPySpace).reverse)

/-- Python `x or default` on strings: the default replaces only a falsy (empty) value. -/
def pyOr (s d : String) : String := if s = "" then d else s

/-- Scanning loop of Python `str.replace` over code points: replace each
(non-overlapping, leftmost) occurrence of `old` by `new`.  The fuel argument
(instantiated with the input length) only drives structural recursion; each
step consumes at least one character. -/
def pyReplaceLoop (old new : List Char) : Nat → List Char → List Char
  | 0, l => l
  | _ + 1, [] => []
  | fuel + 1, c :: cs =>
      if old.isPrefixOf (c :: cs) then new ++ pyReplaceLoop old new fuel ((c :: cs).drop old.length)
      else c :: pyReplaceLoop old new fuel cs

/-- Python `s.replace(old, new)` (for the non-empty patterns used here). -/
def pyReplace (s old new : String) : String :=
  if old = "" then s else String.mk (pyReplaceLoop old.data new.data s.data.length s.data)

/-- Python `s.endswith(suffix)`. -/
def pyEndsWith (s suffix : String) : Bool := suffix.data.isSuffixOf s.data

/-- Python `c in s` for a single character. -/
def pyContainsChar (s : String) (c : Char) : Bool := s.data.contains c

/-- Code-point comparison of Python string `<`. -/
def pyStrLtList : List Char → List Char → Bool
  | [], [] => false
  | [], _ :: _ => true
  | _ :: _, [] => false
  | a :: as, b :: bs =>
      if a.toNat < b.toNat then true
      else if b.toNat < a.toNat then false
      else pyStrLtList as bs

/-- Python string `<` (lexicographic on code points). -/
def pyStrLt (a b : String) : Bool := pyStrLtList a.data b.data

/-- `df.iterrows()` metadata extraction of `_load_file_embeddings_and_meta`:
row `i` of the CSV becomes a `MetaRow` with `source_file = base` and `row_num = i`
(`str(row.get(c, "") or "")` is the identity on the string fields here). -/
def meta_rows (base : String) : Nat → List CsvRow → List MetaRow
  | _, [] => []
  | i, r :: rs =>
      { article_id := r.id, article_title := r.article_title, date := r.date,
        paper := r.paper, source_file := base, row_num := i } :: meta_rows base (i + 1) rs

/-- `FAISSVectorStore._load_file_embeddings_and_meta`: returns `none` when the
paired CSV is missing, when loading/parsing raises, when the frame is empty, or
when the metadata row count differs from the vector count; otherwise the
embeddings together with the per-row metadata. -/
def load_file_embeddings_and_meta (f : SourceFile) : Option (List (List ℚ) × List MetaRow) :=
  if !f.csvExists then none
  else if !f.readable then none
  else if f.csvRows.isEmpty then none
  else if f.csvRows.length ≠ f.embeddings.length then none
  else some (f.embeddings, meta_rows (pyReplace f.fileName ".npy" "") 0 f.csvRows)

/-- Whether loading this file prints the `"  Error: …"` line (its loader raised). -/
def load_logs_error (f : SourceFile) : Bool := f.csvExists && !f.readable

/-- The metadata batch a loaded file inserts: ids `global_idx, global_idx+1, …`
(`for row in rows: batch.append((global_idx, …)); global_idx += 1`). -/
def dbBatch (g : Nat) : List MetaRow → List DbRow
  | [] => []
  | r :: rs =>
      { idx := g, article_id := r.article_id, article_title := r.article_title,
        date := r.date, paper := r.paper, source_file := r.source_file,
        row_num := r.row_num } :: dbBatch (g + 1) rs

/-- `conn.executemany("INSERT INTO documents VALUES …", batch)`: rows are inserted
in order; a duplicate `idx` primary key raises `IntegrityError`. -/
def insertMany (db : List DbRow) : List DbRow → Except String (List DbRow)
  | [] => .ok db
  | r :: rs =>
      if db.any (fun r2 => r2.idx = r.idx) then
        .error "UNIQUE constraint failed: documents.idx"
      else insertMany (db ++ [r]) rs

/-- The data accumulated by a build loop: the sizes of the vector batches handed
to the index (`all_embeddings` in flat mode, the successive `index.add` calls in
compressed mode), the `documents` table contents, and `global_idx`. -/
structure IngestState where
  batches : List Nat
  db : List DbRow
  gidx : Nat
deriving Repr, DecidableEq

/-- The shared per-file ingestion loop of `_build_flat` and `_build_compressed`
(data part): skip unloadable files, otherwise append the vector batch, insert
the metadata batch with ids `global_idx, …`, and advance `global_idx`. -/
def ingest_files : IngestState → List SourceFile → Except String IngestState
  | s, [] => .ok s
  | s, f :: fs =>
      match load_file_embeddings_and_meta f with
      | none => ingest_files s fs
      | some (embs, rows) =>
          match insertMany s.db (dbBatch s.gidx rows) with
          | .error e => .error e
          | .ok db2 =>
              ingest_files { batches := s.batches ++ [embs.length], db := db2,
                             gidx := s.gidx + rows.length } fs

/-- What `_build_flat` prints: the periodic progress line (with the running doc
count), the `"Creating flat index..."` line and the final `"Index built: n
vectors"` report, plus the `"  Error: …"` line of a file whose loader raised. -/
inductive BuildLogEvent where
  | loadError (name : String)
  | progress (filesDone : Nat) (totalFiles : Nat) (docs : Nat)
  | creatingIndex
  | built (nVectors : Nat)
deriving Repr, DecidableEq

/-- `_build_flat`'s loop with its prints: `file_idx` is threaded for the
`(file_idx + 1) % 10 == 0` commit/progress cadence (note that a skipped file
`continue`s before that check). -/
def flat_loop (total : Nat) : Nat → IngestState × List BuildLogEvent → List SourceFile →
    Except String (IngestState × List BuildLogEvent)
  | _, sl, [] => .ok sl
  | i, (s, lg), f :: fs =>
      let lg1 := if load_logs_error f then lg ++ [.loadError f.fileName] else lg
      match load_file_embeddings_and_meta f with
      | none => flat_loop total (i + 1) (s, lg1) fs
      | some (embs, rows) =>
          match insertMany s.db (dbBatch s.gidx rows) with
          | .error e => .error e
          | .ok db2 =>
              let s2 : IngestState :=
                { batches := s.batches ++ [embs.length], db := db2,
                  gidx := s.gidx + rows.length }
              let lg2 := if (i + 1) % 10 = 0 then lg1 ++ [.progress (i + 1) total s2.gidx] else lg1
              flat_loop total (i + 1) (s2, lg2) fs

/-- The result of a completed index build: the index's `ntotal`, the `documents`
table, and for a compressed build the trained cluster count (`none` for a flat
build, which has no training step). -/
structure BuildOut where
  nVecs : Nat
  db : List DbRow
  trained : Option Nat
deriving Repr, DecidableEq

/-- `_build_flat` after its loop: `raise ValueError("No embeddings loaded!")`
when no file contributed, else stack the batches into the flat index. -/
def flat_finish (s : IngestState) : Except String BuildOut :=
  if s.batches.isEmpty then .error "No embeddings loaded!"
  else .ok { nVecs := s.batches.sum, db := s.db, trained := none }

/-- `FAISSVectorStore._build_flat`, run against an existing `documents` table
`db0` (`_init_db` only does `CREATE TABLE IF NOT EXISTS`, keeping old rows). -/
def build_flat (db0 : List DbRow) (files : List SourceFile) :
    Except String (BuildOut × List BuildLogEvent) :=
  match flat_loop files.length 0 ({ batches := [], db := db0, gidx := 0 }, []) files with
  | .error e => .error e
  | .ok (s, lg) =>
      match flat_finish s with
      | .error e => .error e
      | .ok o => .ok (o, lg ++ [.creatingIndex, .built s.batches.sum])

/-- `build_flat` without its print log. -/
def build_flat_data (db0 : List DbRow) (files : List SourceFile) : Except String BuildOut :=
  (build_flat db0 files).map Prod.fst

/-- Phase 1 of `_build_compressed`: collect training batches from the first 30
files, breaking once the running total reaches the 500 000 training budget
(the check runs after each append). -/
def collect_training (acc : Nat) : List SourceFile → List Nat
  | [] => []
  | f :: fs =>
      match load_file_embeddings_and_meta f with
      | none => collect_training acc fs
      | some (embs, _) =>
          if 500000 ≤ acc + embs.length then [embs.length]
          else embs.length :: collect_training (acc + embs.length) fs

/-- `FAISSVectorStore._build_compressed`: train on a bounded sample drawn from
`files[:30]` (`np.vstack` of an empty sample raises, which is fatal), choose
`n_clusters = min(4096, n_train // 40)`, then run the same per-file population
loop as the flat build.  The wall-clock progress prints are external I/O and
are not tracked. -/
def build_compressed (db0 : List DbRow) (files : List SourceFile) : Except String BuildOut :=
  if (collect_training 0 (files.take 30)).isEmpty then
    .error "need at least one array to concatenate"
  else
    match ingest_files { batches := [], db := db0, gidx := 0 } files with
    | .error e => .error e
    | .ok s =>
        .ok { nVecs := s.batches.sum, db := s.db,
              trained := some (min 4096 (min (collect_training 0 (files.take 30)).sum 500000 / 40)) }

/-- Operating mode of the index (`IndexFlatIP` vs `IndexIVFPQ`). -/
inductive IndexMode where
  | flat
  | compressed
deriving Repr, DecidableEq

/-- Insertion step of Python `sorted` on file names (lexicographic). -/
def insert_by_name (f : SourceFile) : List SourceFile → List SourceFile
  | [] => [f]
  | g :: gs => if pyStrLt f.fileName g.fileName then f :: g :: gs else g :: insert_by_name f gs

/-- Python `sorted(files)` by file name. -/
def sort_by_name (l : List SourceFile) : List SourceFile := l.foldr insert_by_name []

/-- `if self.max_files: files = files[:self.max_files]` — `None` and `0` are
falsy, so only a positive `max_files` truncates. -/
def pyTruncate (maxFiles : Option Nat) (l : List SourceFile) : List SourceFile :=
  match maxFiles with
  | none => l
  | some 0 => l
  | some m => l.take m

/-- The file list `_build_index` processes: the `.npy` entries of `emb_dir`,
sorted, then truncated by `max_files`. -/
def selected_files (dirFiles : List SourceFile) (maxFiles : Option Nat) : List SourceFile :=
  pyTruncate maxFiles (sort_by_name (dirFiles.filter (fun f => pyEndsWith f.fileName ".npy")))

/-- `FAISSVectorStore._build_index`: `use_compressed = total_files > 200`
selects the compressed (IVF+PQ, trained) build, otherwise the flat build. -/
def build_index (dirFiles : List SourceFile) (maxFiles : Option Nat) (db0 : List DbRow) :
    IndexMode × Except String BuildOut :=
  let files := selected_files dirFiles maxFiles
  if 200 < files.length then (.compressed, build_compressed db0 files)
  else (.flat, build_flat_data db0 files)

/-- The `documents` rows durably committed once an initially-empty flat build
has processed its first `k` files and is then killed: `conn.commit()` runs only
when a file both loads and sits at a `(file_idx + 1) % 10 == 0` position; rows
inserted after the last such commit are lost with the connection. -/
def flat_durable : Nat → List DbRow → List DbRow → Nat → List SourceFile → List DbRow
  | _, committed, _, _, [] => committed
  | i, committed, cur, g, f :: fs =>
      match load_file_embeddings_and_meta f with
      | none => flat_durable (i + 1) committed cur g fs
      | some (_, rows) =>
          let cur2 := cur ++ dbBatch g rows
          let g2 := g + rows.length
          if (i + 1) % 10 = 0 then flat_durable (i + 1) cur2 cur2 g2 fs
          else flat_durable (i + 1) committed cur2 g2 fs

/-- Durable `documents` rows after an interrupted flat build over `files`
stopped right after its `k`-th file. -/
def flat_durable_after (files : List SourceFile) (k : Nat) : List DbRow :=
  flat_durable 0 [] [] 0 (files.take k)

/-- `build_embeddings_full.py` lines 35–38: the set of chunk CSVs whose `.npy`
embedding artifact already exists in `save_dir`. -/
def processed_files_of (saveDirListing : List String) : List String :=
  (saveDirListing.filter (fun f => pyEndsWith f ".npy")).map (fun f => pyReplace f ".npy" ".csv")

/-- `files = [f for f in files if f not in processed_files]`: the files a
(re)started embedding run actually processes. -/
def embed_files_to_process (saveDirListing : List String) (files : List String) : List String :=
  files.filter (fun f => !(processed_files_of saveDirListing).contains f)

/-- The metadata dict the full store's `search` attaches to each hit. -/
structure SearchMetaFull where
  article_id : String
  article_title : String
  date : String
  paper : String
  chunk_index : String
  source_file : String
deriving Repr, DecidableEq

/-- The metadata dict the lite store's `search` attaches to each hit. -/
structure SearchMetaLite where
  article_id : String
  article_title : String
  date : String
  paper : String
deriving Repr, DecidableEq

/-- The four parallel result lists returned by both stores' `search`. -/
structure SearchOut (μ : Type) where
  ids : List String
  documents : List String
  metadatas : List μ
  distances : List ℚ
deriving Repr, DecidableEq

/-- A row of the lite store's `documents` table (text stored inline). -/
structure LiteDbRow where
  idx : Nat
  article_id : String
  article_title : String
  date : String
  paper : String
  chunk_text : String
deriving Repr, DecidableEq

/-- Loop body of `FAISSVectorStore.search`: look the FAISS id up in SQLite
(`fetchone` on the `idx` primary key, modelled by the lookup function `db`),
drop the hit when no row exists, otherwise resolve the text on demand and
append to all four lists; the reported distance is `1 - score`. -/
def faiss_search_step (db : Int → Option DbRow) (lookup_text : String → Nat → String)
    (acc : SearchOut SearchMetaFull) (p : ℚ × Int) : SearchOut SearchMetaFull :=
  match db p.2 with
  | none => acc
  | some row =>
      { ids := acc.ids ++ ["doc_" ++ toString p.2],
        documents := acc.documents ++ [lookup_text row.source_file row.row_num],
        metadatas := acc.metadatas ++
          [{ article_id := row.article_id, article_title := row.article_title,
             date := row.date, paper := row.paper,
             chunk_index := toString row.row_num, source_file := row.source_file }],
        distances := acc.distances ++ [1 - p.1] }

/-- `FAISSVectorStore.search`, given the raw `index.search` output arrays
(`scores`, `indices`): keep the pairs with a non-negative id (FAISS pads an
under-filled result with `-1`), and skip the whole join when there are no
valid pairs or the metadata database file is absent. -/
def FAISSVectorStore.search (db : Int → Option DbRow) (db_exists : Bool)
    (lookup_text : String → Nat → String) (scores : List ℚ) (indices : List Int) :
    SearchOut SearchMetaFull :=
  let valid := (scores.zip indices).filter (fun p => decide (0 ≤ p.2))
  if valid.isEmpty || !db_exists then ⟨[], [], [], []⟩
  else valid.foldl (faiss_search_step db lookup_text) ⟨[], [], [], []⟩

/-- Loop body of `LiteVectorStore.search`: same join, but the text comes
inline from the row (`row[4] or ""`). -/
def lite_search_step (db : Int → Option LiteDbRow)
    (acc : SearchOut SearchMetaLite) (p : ℚ × Int) : SearchOut SearchMetaLite :=
  match db p.2 with
  | none => acc
  | some row =>
      { ids := acc.ids ++ ["doc_" ++ toString p.2],
        documents := acc.documents ++ [pyOr row.chunk_text ""],
        metadatas := acc.metadatas ++
          [{ article_id := row.article_id, article_title := row.article_title,
             date := row.date, paper := row.paper }],
        distances := acc.distances ++ [1 - p.1] }

/-- `LiteVectorStore.search`, given the raw `index.search` output. -/
def LiteVectorStore.search (db : Int → Option LiteDbRow)
    (scores : List ℚ) (indices : List Int) : SearchOut SearchMetaLite :=
  let valid := (scores.zip indices).filter (fun p => decide (0 ≤ p.2))
  if valid.isEmpty then ⟨[], [], [], []⟩
  else valid.foldl (lite_search_step db) ⟨[], [], [], []⟩

/-- `SELECT … FROM documents WHERE idx = ?` against a concrete lite table. -/
def lite_db_lookup (rows : List LiteDbRow) (i : Int) : Option LiteDbRow :=
  rows.find? (fun r => decide ((r.idx : Int) = i))

/-- Base URL for article links. -/
def UDN_BASE_URL : String := "https://newspapers.lib.utah.edu/details?id="

/-- One formatted source citation.  `relevance` holds the numeric percentage
`max(0, 1 - dist) * 100`; the app renders it as `f"{similarity:.0f}%"`. -/
structure SourceCitation where
  title : String
  snippet : String
  date : String
  paper : String
  article_id : String
  link : String
  relevance : ℚ
deriving Repr, DecidableEq

/-- `if not title or title in ("nan", "None", "")`. -/
def clean_title (t : String) : String :=
  if t = "" || t = "nan" || t = "None" then "Untitled Article" else t

/-- `if date and "T" in date: date = date.split("T")[0]`. -/
def format_date (d : String) : String :=
  if d ≠ "" ∧ pyContainsChar d 'T' then String.mk (d.data.takeWhile (fun c => c ≠ 'T')) else d

/-- `doc[:300] + "..." if len(doc) > 300 else doc`. -/
def snippetOf (doc : String) : String :=
  if 300 < doc.length then pyTake 300 doc ++ "..." else doc

/-- One iteration of `RAGChatbot._format_sources` (the `meta.get` defaults
never fire: `search` always populates every key, possibly with `""`). -/
def RAGChatbot.format_source (doc : String) (meta : SearchMetaFull) (dist : ℚ) :
    SourceCitation :=
  { title := clean_title meta.article_title,
    snippet := snippetOf doc,
    date := format_date meta.date,
    paper := meta.paper,
    article_id := meta.article_id,
    link := if meta.article_id ≠ "" then UDN_BASE_URL ++ meta.article_id else "",
    relevance := max 0 (1 - dist) * 100 }

/-- `RAGChatbot._format_sources`: `zip` over the three parallel result lists. -/
def RAGChatbot.format_sources (res : SearchOut SearchMetaFull) : List SourceCitation :=
  (res.documents.zip (res.metadatas.zip res.distances)).map
    (fun p => RAGChatbot.format_source p.1 p.2.1 p.2.2)

/-- Insertion step of Python `sorted` on strings. -/
def py_insert_str (a : String) : List String → List String
  | [] => [a]
  | b :: bs => if pyStrLt a b then a :: b :: bs else b :: py_insert_str a bs

/-- Python `sorted` on a list of strings (lexicographic). -/
def py_sorted (l : List String) : List String := l.foldr py_insert_str []

/-- `RAGChatbot._format_answer`: the deterministic extractive summary
(result count, up to three distinct papers with an overflow count, date range). -/
def RAGChatbot.format_answer (question : String) (sources : List SourceCitation) : String :=
  let _ := question
  let n := sources.length
  if n = 0 then "No relevant articles found."
  else
    let papers := py_sorted (((sources.map (fun s => s.paper)).filter (fun p => p ≠ "")).dedup)
    let dates := (sources.map (fun s => s.date)).filter (fun d => d ≠ "")
    let part1 := "Found " ++ toString n ++ " relevant article" ++
      (if 1 < n then "s" else "") ++ " from the Utah Digital Newspapers archive."
    let parts := [part1]
    let parts := if papers.isEmpty then parts
      else parts ++ ["Sources include: " ++ String.intercalate ", " (papers.take 3) ++
        (if 3 < papers.length then " and " ++ toString (papers.length - 3) ++ " more" else "") ++ "."]
    let parts := if dates.isEmpty then parts
      else
        let sd := py_sorted dates
        if 1 < sd.length ∧ sd.head? ≠ sd.getLast? then
          parts ++ ["Date range: " ++ sd.headD "" ++ " to " ++ sd.getLastD "" ++ "."]
        else parts
    String.intercalate " " (parts ++ ["See the sources below for detailed excerpts."])

/-- The `{"answer": …, "sources": …}` dict; `llm_summary` models the optional
key added by the LLM post-processor (`none` when absent). -/
structure RagResponse where
  answer : String
  sources : List SourceCitation
  llm_summary : Option String
deriving Repr, DecidableEq

/-- `RAGChatbot.query`, parameterised over the external embedder and the
vector-store search so that the model can express that neither is consulted on
the early-return paths. -/
def RAGChatbot.query (embed : String → List ℚ)
    (search : List ℚ → Nat → SearchOut SearchMetaFull)
    (user_question : String) (top_k : Nat) : RagResponse :=
  if user_question = "" || pyStrip user_question = "" then
    { answer := "Please enter a search query.", sources := [], llm_summary := none }
  else
    let query_embedding := embed user_question
    let results := search query_embedding top_k
    if results.ids.isEmpty then
      { answer := "No relevant articles found.", sources := [], llm_summary := none }
    else
      let sources := RAGChatbot.format_sources results
      { answer := RAGChatbot.format_answer user_question sources,
        sources := sources, llm_summary := none }

/-- `LLMProcessor.process_rag_response`, given the string the backend call
returned (`_call_groq`/`_call_ollama` catch their own exceptions and return
`""` on any failure): with no sources the response is returned unchanged;
with a non-empty LLM answer only `answer`/`llm_summary` are replaced; with an
empty one the response is returned unchanged.  The `sources` list is never
touched. -/
def LLMProcessor.process_rag_response (llm_answer : String) (resp : RagResponse) :
    RagResponse :=
  if resp.sources.isEmpty then resp
  else if llm_answer ≠ "" then
    { resp with answer := llm_answer, llm_summary := some llm_answer }
  else resp

/-- The `app.py` call site: `process_rag_response` runs inside `try/except`,
so a raised exception (`llm_result = none`) leaves the retrieval response
untouched. -/
def app_apply_llm (llm_result : Option String) (resp : RagResponse) : RagResponse :=
  match llm_result with
  | none => resp
  | some a => LLMProcessor.process_rag_response a resp

/-- One iteration of the lite-mode source formatting in
`app.py::get_chatbot_response` (same snippet and relevance formulas as
`RAGChatbot._format_sources`). -/
def app_lite_source (doc : String) (meta : SearchMetaLite) (dist : ℚ) : SourceCitation :=
  { title := clean_title meta.article_title,
    snippet := snippetOf doc,
    date := format_date meta.date,
    paper := meta.paper,
    article_id := meta.article_id,
    link := if meta.article_id ≠ "" then UDN_BASE_URL ++ meta.article_id else "",
    relevance := max 0 (1 - dist) * 100 }

/-- The rows `build_lite.py` stores for one sampled file, starting at
`global_idx = g`: full text truncated to `str(row.get("chunk_text", "") or "")[:1000]`. -/
def lite_batch (g : Nat) : List CsvRow → List LiteDbRow
  | [] => []
  | r :: rs =>
      { idx := g, article_id := r.id, article_title := r.article_title,
        date := r.date, paper := r.paper,
        chunk_text := pyTake 1000 (pyOr r.chunk_text "") } :: lite_batch (g + 1) rs

/-- Per-file step of the `build_lite.py` loop: skip when the CSV is missing,
unreadable, empty or mismatched with the vector count; `chosen` is the sorted
row sample drawn by `random.sample` (an out-of-range `df.iloc` raises, which
the per-file `except` turns into a skip). -/
def build_lite_file (g : Nat) (f : SourceFile) (chosen : List Nat) :
    Option (List LiteDbRow) :=
  if !f.csvExists then none
  else if !f.readable then none
  else if f.csvRows.isEmpty then none
  else if f.csvRows.length ≠ f.embeddings.length then none
  else
    match chosen.mapM (fun i => f.csvRows.get? i) with
    | none => none
    | some rows => some (lite_batch g rows)

/-- The `documents` table `build_lite.py` produces from its selected files and
per-file row samples. -/
def build_lite (files : List (SourceFile × List Nat)) : List LiteDbRow :=
  (files.foldl
    (fun (acc : List LiteDbRow × Nat) p =>
      match build_lite_file acc.2 p.1 p.2 with
      | none => acc
      | some batch => (acc.1 ++ batch, acc.2 + batch.length))
    ([], 0)).1

/-! ## Helper lemmas -/

theorem pyTake_length (n : Nat) (s : String) : (pyTake n s).length = min n s.length := by
  cases s with
  | mk data => simp [pyTake, String.length]

theorem pyTake_length_le (n : Nat) (s : String) : (pyTake n s).length ≤ n := by
  rw [pyTake_length]; exact Nat.min_le_left _ _

theorem pyOr_empty_length (s : String) : (pyOr s "").length ≤ s.length := by
  unfold pyOr
  split
  · simp_all
  · exact Nat.le_refl _

/-! ## C9: snippet truncation -/

/-- C9: for every returned passage, the snippet shown in a source citation (in
both the full-mode formatter and the lite-mode app formatter) equals the full
document text when that text is at most 300 characters long, and otherwise
equals exactly the first 300 characters followed by `"..."`; a snippet is never
longer than 303 characters. -/
theorem c9_snippet_truncation (doc : String) (meta : SearchMetaFull)
    (metaL : SearchMetaLite) (dist : ℚ) :
    (RAGChatbot.format_source doc meta dist).snippet = snippetOf doc
    ∧ (app_lite_source doc metaL dist).snippet = snippetOf doc
    ∧ (doc.length ≤ 300 → snippetOf doc = doc)
    ∧ (300 < doc.length → snippetOf doc = pyTake 300 doc ++ "...")
    ∧ (snippetOf doc).length ≤ 303 := by
  refine ⟨rfl, rfl, ?_, ?_, ?_⟩
  · intro h
    unfold snippetOf
    rw [if_neg (by omega)]
  · intro h
    unfold snippetOf
    rw [if_pos h]
  · unfold snippetOf
    split
    · rename_i h
      rw [String.length_append, pyTake_length]
      have : min 300 doc.length = 300 := Nat.min_eq_left (Nat.le_of_lt h)
      rw [this]
      decide
    · omega

/-- Concrete instance of the long-document branch of `c9_snippet_truncation`. -/
def docW : String := String.mk (List.replicate 301 'a')

theorem c9_snippet_truncation_witness :
    300 < docW.length
    ∧ snippetOf docW = pyTake 300 docW ++ "..."
    ∧ snippetOf "abc" = "abc" := by
  refine ⟨by decide, ?_, ?_⟩
  · exact (c9_snippet_truncation docW ⟨"", "", "", "", "", ""⟩ ⟨"", "", "", ""⟩ 0).2.2.2.1
      (by decide)
  · exact (c9_snippet_truncation "abc" ⟨"", "", "", "", "", ""⟩ ⟨"", "", "", ""⟩ 0).2.2.1
      (by decide)

/-! ## C5: relevance percentage -/

/-- C5 (amended): the relevance percentage equals `max(0, 1 - distance) * 100`
in both the full-mode and lite-mode formatters, where the distance appended by
the vector store for a hit with index score `s` is `1 - s`; the percentage is
always `≥ 0`, and it is `≤ 100` exactly when the reported distance is
non-negative (equivalently, when the index similarity score is at most 1) —
the code does not enforce an upper bound for scores above 1. -/
theorem c5_relevance_formula (doc : String) (meta : SearchMetaFull)
    (metaL : SearchMetaLite) (dist score : ℚ) :
    (RAGChatbot.format_source doc meta dist).relevance = max 0 (1 - dist) * 100
    ∧ (app_lite_source doc metaL dist).relevance = max 0 (1 - dist) * 100
    ∧ (RAGChatbot.format_source doc meta (1 - score)).relevance = max 0 score * 100
    ∧ (∀ (db : Int → Option DbRow) (lt : String → Nat → String)
         (acc : SearchOut SearchMetaFull) (p : ℚ × Int),
         (faiss_search_step db lt acc p).distances = acc.distances
         ∨ (faiss_search_step db lt acc p).distances = acc.distances ++ [1 - p.1])
    ∧ 0 ≤ (RAGChatbot.format_source doc meta dist).relevance
    ∧ (0 ≤ dist → (RAGChatbot.format_source doc meta dist).relevance ≤ 100) := by
  refine ⟨rfl, rfl, ?_, ?_, ?_, ?_⟩
  · show max 0 (1 - (1 - score)) * 100 = max 0 score * 100
    ring_nf
  · intro db lt acc p
    unfold faiss_search_step
    cases db p.2 with
    | none => exact Or.inl rfl
    | some row => exact Or.inr rfl
  · show (0 : ℚ) ≤ max 0 (1 - dist) * 100
    have h1 : (0 : ℚ) ≤ max 0 (1 - dist) := le_max_left 0 _
    nlinarith
  · intro h
    show max 0 (1 - dist) * 100 ≤ 100
    have h1 : max 0 (1 - dist) ≤ 1 := max_le (by norm_num) (by linarith)
    nlinarith [le_max_left (0 : ℚ) (1 - dist)]

theorem c5_relevance_formula_witness :
    (0 : ℚ) ≤ 1/2
    ∧ (RAGChatbot.format_source "d" ⟨"", "", "", "", "", ""⟩ (1/2)).relevance ≤ 100 := by
  refine ⟨by norm_num, ?_⟩
  exact (c5_relevance_formula "d" ⟨"", "", "", "", "", ""⟩ ⟨"", "", "", ""⟩ (1/2) 0).2.2.2.2.2
    (by norm_num)

/-- A concrete metadata row present in the store, used by the C5 counterexample. -/
def dbRowW : DbRow := ⟨0, "a1", "Title", "1900-01-01", "Paper", "f1", 0⟩

/-- A one-row `documents` table lookup, used by the C5 counterexample. -/
def dbW : Int → Option DbRow := fun i => if i = 0 then some dbRowW else none

/-- C5 counterexample: when the index reports similarity score 2 for a hit
(compressed-index scores are quantized approximations and are not bounded by 1),
the store reports distance `1 - 2 = -1` and the formatter shows a relevance
percentage of 200, outside `[0, 100]` — the claim's range assertion is false for
a reported distance of `-1`. -/
theorem c5_counterexample :
    (RAGChatbot.format_sources
        (FAISSVectorStore.search dbW true (fun _ _ => "text") [2] [0])).map
      (fun s => s.relevance) = [200]
    ∧ ¬((200 : ℚ) ≤ 100) := by
  constructor
  · have hsearch : FAISSVectorStore.search dbW true (fun _ _ => "text") [2] [0] =
        ⟨["doc_0"], ["text"],
         [{ article_id := "a1", article_title := "Title", date := "1900-01-01",
            paper := "Paper", chunk_index := "0", source_file := "f1" }], [1 - 2]⟩ := by
      simp [FAISSVectorStore.search, faiss_search_step, dbW, dbRowW, List.zip]
      decide
    rw [hsearch]
    have hmax : max (0 : ℚ) (1 - (1 - 2)) = 1 - (1 - 2) := max_eq_right (by norm_num)
    simp [RAGChatbot.format_sources, RAGChatbot.format_source, hmax]
    norm_num
  · norm_num

/-! ## C6: the synthesizer never damages a successful retrieval -/

/-- C6: if the LLM synthesis step fails — `process_rag_response` raises (the
`app.py` call site catches the exception and keeps the retrieval response) or
the backend call returns the empty string — the response handed back is exactly
the retrieval response (extractive answer and full sources list); and in every
case, failure or success, the `sources` list is left unmodified. -/
theorem c6_synthesizer_preserves_retrieval (llm_result : Option String)
    (resp : RagResponse) :
    ((llm_result = none ∨ llm_result = some "") → app_apply_llm llm_result resp = resp)
    ∧ (app_apply_llm llm_result resp).sources = resp.sources := by
  constructor
  · rintro (rfl | rfl)
    · rfl
    · simp [app_apply_llm, LLMProcessor.process_rag_response]
  · cases llm_result with
    | none => rfl
    | some a =>
        simp only [app_apply_llm, LLMProcessor.process_rag_response]
        split
        · rfl
        · split
          · rfl
          · rfl

/-- A concrete retrieval response used by the C6 witness. -/
def respW : RagResponse :=
  { answer := "Found 1 relevant article from the Utah Digital Newspapers archive.",
    sources := [⟨"Title", "snip", "1900-01-01", "Paper", "a1", "", 74⟩],
    llm_summary := none }

theorem c6_synthesizer_preserves_retrieval_witness :
    (some "" = (none : Option String) ∨ some "" = some "")
    ∧ app_apply_llm (some "") respW = respW := by
  refine ⟨Or.inr rfl, ?_⟩
  exact (c6_synthesizer_preserves_retrieval (some "") respW).1 (Or.inr rfl)

/-! ## C4: empty or whitespace-only query -/

/-- C4: for every query that is empty or whitespace-only (`not user_question or
not user_question.strip()`), `RAGChatbot.query` returns the fixed
"Please enter a search query." answer with an empty sources list, and the
result is independent of the embedder and of the vector-store search — neither
is consulted. -/
theorem c4_empty_query_short_circuits (embed embed2 : String → List ℚ)
    (search search2 : List ℚ → Nat → SearchOut SearchMetaFull)
    (q : String) (k k2 : Nat) (h : pyStrip q = "") :
    RAGChatbot.query embed search q k =
      { answer := "Please enter a search query.", sources := [], llm_summary := none }
    ∧ RAGChatbot.query embed search q k = RAGChatbot.query embed2 search2 q k2 := by
  have hc : (q = "" || pyStrip q = "") = true := by
    simp [h]
  constructor
  · unfold RAGChatbot.query
    rw [if_pos hc]
  · unfold RAGChatbot.query
    rw [if_pos hc, if_pos hc]

theorem c4_empty_query_short_circuits_witness :
    pyStrip "  " = ""
    ∧ RAGChatbot.query (fun _ => []) (fun _ _ => ⟨[], [], [], []⟩) "  " 5 =
        { answer := "Please enter a search query.", sources := [], llm_summary := none } := by
  refine ⟨by decide, ?_⟩
  exact (c4_empty_query_short_circuits (fun _ => []) (fun _ => [])
    (fun _ _ => ⟨[], [], [], []⟩) (fun _ _ => ⟨[], [], [], []⟩) "  " 5 7 (by decide)).1

/-! ## C2: mode selection -/

theorem build_flat_ok_trained {db0 : List DbRow} {files : List SourceFile} {o : BuildOut}
    (h : build_flat_data db0 files = .ok o) : o.trained = none := by
  unfold build_flat_data build_flat at h
  split at h
  · simp [Except.map] at h
  · rename_i s lg heq
    split at h
    · simp [Except.map] at h
    · rename_i o2 heq2
      simp [Except.map] at h
      unfold flat_finish at heq2
      split at heq2
      · cases heq2
      · cases heq2
        rw [← h]

theorem build_compressed_ok_trained {db0 : List DbRow} {files : List SourceFile} {o : BuildOut}
    (h : build_compressed db0 files = .ok o) : ∃ k, o.trained = some k := by
  unfold build_compressed at h
  split at h
  · cases h
  · split at h
    · cases h
    · cases h
      exact ⟨_, rfl⟩

/-- C2: index-mode selection is a deterministic function of the number of
selected source embedding files (the sorted `.npy` listing after any
`max_files` truncation): at most 200 files yields the exact flat build, whose
result carries no training data; 201 or more yields the compressed IVF+PQ
build, whose result carries a trained cluster count. -/
theorem c2_mode_selection (dirFiles : List SourceFile) (maxFiles : Option Nat)
    (db0 : List DbRow) :
    ((selected_files dirFiles maxFiles).length ≤ 200 →
      (build_index dirFiles maxFiles db0).1 = .flat
      ∧ ∀ o, (build_index dirFiles maxFiles db0).2 = .ok o → o.trained = none)
    ∧ (200 < (selected_files dirFiles maxFiles).length →
      (build_index dirFiles maxFiles db0).1 = .compressed
      ∧ ∀ o, (build_index dirFiles maxFiles db0).2 = .ok o → ∃ k, o.trained = some k) := by
  constructor
  · intro h
    have hc : ¬(200 < (selected_files dirFiles maxFiles).length) := by omega
    refine ⟨by simp [build_index, hc], ?_⟩
    intro o ho
    have hflat : build_flat_data db0 (selected_files dirFiles maxFiles) = .ok o := by
      simpa [build_index, hc] using ho
    exact build_flat_ok_trained hflat
  · intro h
    refine ⟨by simp [build_index, h], ?_⟩
    intro o ho
    have hcomp : build_compressed db0 (selected_files dirFiles maxFiles) = .ok o := by
      simpa [build_index, h] using ho
    exact build_compressed_ok_trained hcomp

/-- A directory entry used by the C2 witness. -/
def fileW : SourceFile :=
  { fileName := "a.npy", embeddings := [], csvExists := true, readable := true, csvRows := [] }

theorem c2_mode_selection_witness :
    ((selected_files (List.replicate 200 fileW) none).length ≤ 200
      ∧ (build_index (List.replicate 200 fileW) none []).1 = .flat)
    ∧ (200 < (selected_files (List.replicate 201 fileW) none).length
      ∧ (build_index (List.replicate 201 fileW) none []).1 = .compressed) := by
  have h200 : (selected_files (List.replicate 200 fileW) none).length ≤ 200 := by decide
  have h201 : 200 < (selected_files (List.replicate 201 fileW) none).length := by decide
  exact ⟨⟨h200, ((c2_mode_selection (List.replicate 200 fileW) none []).1 h200).1⟩,
         ⟨h201, ((c2_mode_selection (List.replicate 201 fileW) none []).2 h201).1⟩⟩

/-! ## C1: id assignment and index/metadata consistency -/

theorem meta_rows_length (base : String) : ∀ (i : Nat) (rs : List CsvRow),
    (meta_rows base i rs).length = rs.length := by
  intro i rs
  induction rs generalizing i with
  | nil => rfl
  | cons r rs ih => simp [meta_rows, ih]

theorem dbBatch_length : ∀ (g : Nat) (rs : List MetaRow),
    (dbBatch g rs).length = rs.length := by
  intro g rs
  induction rs generalizing g with
  | nil => rfl
  | cons r rs ih => simp [dbBatch, ih]

theorem dbBatch_map_idx : ∀ (g : Nat) (rs : List MetaRow),
    (dbBatch g rs).map (fun r => r.idx) = List.range' g rs.length := by
  intro g rs
  induction rs generalizing g with
  | nil => rfl
  | cons r rs ih => simp [dbBatch, List.range', ih]

theorem insertMany_ok : ∀ (batch db : List DbRow),
    (∀ r ∈ batch, ∀ r2 ∈ db, r2.idx ≠ r.idx) →
    ((batch.map (fun r => r.idx)).Nodup) →
    insertMany db batch = .ok (db ++ batch) := by
  intro batch
  induction batch with
  | nil => intro db _ _; simp [insertMany]
  | cons r rs ih =>
      intro db hdisj hnodup
      unfold insertMany
      rw [if_neg]
      · have h1 : ∀ x ∈ rs, ∀ r2 ∈ db ++ [r], r2.idx ≠ x.idx := by
          intro x hx r2 hr2
          rcases List.mem_append.1 hr2 with h | h
          · exact hdisj x (List.mem_cons_of_mem _ hx) r2 h
          · have hr : r2 = r := by simpa using h
            subst hr
            simp only [List.map_cons, List.nodup_cons] at hnodup
            intro hcontra
            exact hnodup.1 (hcontra ▸ List.mem_map_of_mem (fun r => r.idx) hx)
        have h2 : (rs.map (fun r => r.idx)).Nodup := by
          simp only [List.map_cons, List.nodup_cons] at hnodup
          exact hnodup.2
        rw [ih (db ++ [r]) h1 h2]
        simp
      · simp only [List.any_eq_true, decide_eq_true_eq, not_exists, not_and]
        intro r2 hr2
        exact hdisj r (List.mem_cons_self _ _) r2 hr2

theorem load_file_lengths : ∀ {f : SourceFile} {embs : List (List ℚ)} {rows : List MetaRow},
    load_file_embeddings_and_meta f = some (embs, rows) → embs.length = rows.length := by
  intro f embs rows h
  unfold load_file_embeddings_and_meta at h
  split at h
  · cases h
  · split at h
    · cases h
    · split at h
      · cases h
      · split at h
        · cases h
        · rename_i h4
          cases h
          rw [meta_rows_length]
          simp only [ne_eq, not_not] at h4
          omega

/-- The invariant maintained by the population loop: the `documents` ids are
exactly `0, 1, …, global_idx - 1` in insertion order, and the vector batches
handed to the index sum to `global_idx`. -/
def IngestInv (s : IngestState) : Prop :=
  s.db.map (fun r => r.idx) = List.range' 0 s.gidx ∧ s.batches.sum = s.gidx

theorem ingest_files_inv : ∀ (files : List SourceFile) (s t : IngestState),
    IngestInv s → ingest_files s files = .ok t → IngestInv t := by
  intro files
  induction files with
  | nil =>
      intro s t hs h
      cases h
      exact hs
  | cons f fs ih =>
      intro s t hs h
      unfold ingest_files at h
      cases hload : load_file_embeddings_and_meta f with
      | none =>
          rw [hload] at h
          exact ih s t hs h
      | some val =>
          obtain ⟨embs, rows⟩ := val
          simp only [hload] at h
          have hins : insertMany s.db (dbBatch s.gidx rows) = .ok (s.db ++ dbBatch s.gidx rows) := by
            apply insertMany_ok
            · intro r hr r2 hr2
              have hr2idx : r2.idx ∈ List.range' 0 s.gidx := by
                rw [← hs.1]; exact List.mem_map_of_mem (fun r => r.idx) hr2
              have hridx : r.idx ∈ List.range' s.gidx rows.length := by
                rw [← dbBatch_map_idx]; exact List.mem_map_of_mem (fun r => r.idx) hr
              rw [List.mem_range'_1] at hr2idx hridx
              omega
            · rw [dbBatch_map_idx]
              exact List.nodup_range' _ _
          simp only [hins] at h
          apply ih _ t _ h
          constructor
          · simp only [List.map_append, hs.1, dbBatch_map_idx]
            have := List.range'_append_1 0 s.gidx rows.length
            simpa [Nat.add_comm] using this
          · simp [hs.2, load_file_lengths hload]

theorem flat_loop_fst : ∀ (files : List SourceFile) (total i : Nat) (s : IngestState)
    (lg : List BuildLogEvent),
    (flat_loop total i (s, lg) files).map Prod.fst = ingest_files s files := by
  intro files
  induction files with
  | nil => intro total i s lg; rfl
  | cons f fs ih =>
      intro total i s lg
      unfold flat_loop ingest_files
      cases hload : load_file_embeddings_and_meta f with
      | none =>
          simp only [hload]
          exact ih _ _ _ _
      | some val =>
          obtain ⟨embs, rows⟩ := val
          simp only [hload]
          cases hins : insertMany s.db (dbBatch s.gidx rows) with
          | error e => simp [hins, Except.map]
          | ok db2 =>
              simp only [hins]
              split
              · exact ih _ _ _ _
              · exact ih _ _ _ _

theorem build_flat_data_eq (db0 : List DbRow) (files : List SourceFile) :
    build_flat_data db0 files =
      match ingest_files { batches := [], db := db0, gidx := 0 } files with
      | .error e => .error e
      | .ok s => flat_finish s := by
  have hc := flat_loop_fst files files.length 0 { batches := [], db := db0, gidx := 0 } []
  unfold build_flat_data build_flat
  cases hfl : flat_loop files.length 0 ({ batches := [], db := db0, gidx := 0 }, []) files with
  | error e =>
      rw [hfl] at hc
      simp only [Except.map] at hc
      rw [← hc]
      rfl
  | ok sl =>
      obtain ⟨s, lg⟩ := sl
      rw [hfl] at hc
      simp only [Except.map] at hc
      rw [← hc]
      cases hff : flat_finish s <;> simp [hff, Except.map]

/-- C1: after a full index build from an empty metadata store over any set of
source files, in either mode, the assigned global ids are exactly
`0, 1, …, rowcount - 1` in insertion order (unique, contiguous, starting at 0,
each new row's id equal to the running count of previously ingested rows, with
skipped files contributing nothing), and the index vector count equals the
metadata row count, so every id in the index has exactly one metadata row. -/
theorem c1_global_ids_consistent (files : List SourceFile) :
    (∀ o lg, build_flat [] files = .ok (o, lg) →
      o.db.map (fun r => r.idx) = List.range o.db.length ∧ o.nVecs = o.db.length)
    ∧ (∀ o, build_compressed [] files = .ok o →
      o.db.map (fun r => r.idx) = List.range o.db.length ∧ o.nVecs = o.db.length) := by
  have hknow : ∀ s, ingest_files { batches := [], db := [], gidx := 0 } files = .ok s →
      s.db.map (fun r => r.idx) = List.range s.db.length ∧ s.batches.sum = s.db.length := by
    intro s hok
    have hinv : IngestInv s :=
      ingest_files_inv files { batches := [], db := [], gidx := 0 } s ⟨rfl, rfl⟩ hok
    have hlen : s.db.length = s.gidx := by
      have := congrArg List.length hinv.1
      simpa using this
    constructor
    · rw [hinv.1, hlen, List.range_eq_range']
    · rw [hinv.2, hlen]
  constructor
  · intro o lg h
    have hdata : build_flat_data [] files = .ok o := by
      unfold build_flat_data
      rw [h]
      rfl
    rw [build_flat_data_eq] at hdata
    cases hok : ingest_files { batches := [], db := [], gidx := 0 } files with
    | error e => rw [hok] at hdata; cases hdata
    | ok s =>
        rw [hok] at hdata
        simp only at hdata
        unfold flat_finish at hdata
        split at hdata
        · cases hdata
        · cases hdata
          exact ⟨(hknow s hok).1, (hknow s hok).2⟩
  · intro o h
    unfold build_compressed at h
    split at h
    · cases h
    · split at h
      · cases h
      · rename_i s hok
        cases h
        exact ⟨(hknow s hok).1, (hknow s hok).2⟩

/-- A well-formed one-row source file used by concrete witnesses. -/
def rowC : CsvRow := ⟨"id1", "Title", "1900-01-01", "Paper", "some text"⟩

/-- A loadable `.npy`/CSV pair with a single vector and a single metadata row. -/
def fileG : SourceFile :=
  { fileName := "f1.npy", embeddings := [[1]], csvExists := true, readable := true,
    csvRows := [rowC] }

/-- The flat-build result on `[fileG]`. -/
def oFlatW : BuildOut := ⟨1, [⟨0, "id1", "Title", "1900-01-01", "Paper", "f1", 0⟩], none⟩

/-- The compressed-build result on `[fileG]`. -/
def oCompW : BuildOut := ⟨1, [⟨0, "id1", "Title", "1900-01-01", "Paper", "f1", 0⟩], some 0⟩

theorem c1_global_ids_consistent_witness :
    build_flat [] [fileG] = .ok (oFlatW, [.creatingIndex, .built 1])
    ∧ (oFlatW.db.map (fun r => r.idx) = List.range oFlatW.db.length
        ∧ oFlatW.nVecs = oFlatW.db.length)
    ∧ build_compressed [] [fileG] = .ok oCompW
    ∧ (oCompW.db.map (fun r => r.idx) = List.range oCompW.db.length
        ∧ oCompW.nVecs = oCompW.db.length) := by
  have h1 : build_flat [] [fileG] = .ok (oFlatW, [.creatingIndex, .built 1]) := by decide
  have h2 : build_compressed [] [fileG] = .ok oCompW := by decide
  exact ⟨h1, (c1_global_ids_consistent [fileG]).1 oFlatW [.creatingIndex, .built 1] h1,
         h2, (c1_global_ids_consistent [fileG]).2 oCompW h2⟩

/-! ## C3: resume behaviour of the builds -/

theorem flat_durable_no_commit : ∀ (fs : List SourceFile) (i : Nat) (cur : List DbRow) (g : Nat),
    (∀ j, j < fs.length → (i + j + 1) % 10 ≠ 0) →
    flat_durable i [] cur g fs = [] := by
  intro fs
  induction fs with
  | nil => intro i cur g _; rfl
  | cons f fs ih =>
      intro i cur g hj
      unfold flat_durable
      cases hload : load_file_embeddings_and_meta f with
      | none =>
          simp only [hload]
          apply ih
          intro j hjl
          have := hj (j + 1) (by simp; omega)
          omega
      | some val =>
          obtain ⟨embs, rows⟩ := val
          simp only [hload]
          rw [if_neg]
          · apply ih
            intro j hjl
            have := hj (j + 1) (by simp; omega)
            omega
          · have := hj 0 (by simp)
            omega

/-- C3 (amended): the index build is resume-idempotent only when the
interruption happens before any periodic metadata commit (in flat mode, before
a loadable file at a multiple-of-ten position has been processed): interrupting
within the first nine files leaves no durable rows, and the restarted build —
which always starts over with `global_idx = 0` and performs no file-level
skipping — then produces exactly the result of an uninterrupted run.
File-granularity skipping of committed work exists only in the embedding
generation script, which skips every chunk CSV whose `.npy` artifact already
exists. -/
theorem c3_resume_only_before_commit (files : List SourceFile) (k : Nat) (hk : k < 10)
    (saveDirListing : List String) (embFiles : List String) (fcsv : String) :
    build_flat (flat_durable_after files k) files = build_flat [] files
    ∧ (fcsv ∈ processed_files_of saveDirListing →
        fcsv ∉ embed_files_to_process saveDirListing embFiles) := by
  constructor
  · have hnil : flat_durable_after files k = [] := by
      unfold flat_durable_after
      apply flat_durable_no_commit
      intro j hjl
      have hjk : j < k := lt_of_lt_of_le hjl (by simp [List.length_take_le])
      omega
    rw [hnil]
  · intro hmem hproc
    simp only [embed_files_to_process, List.mem_filter] at hproc
    rcases hproc with ⟨-, hnc⟩
    rw [Bool.not_eq_true'] at hnc
    have hc : (processed_files_of saveDirListing).contains fcsv = true :=
      List.elem_eq_true_of_mem hmem
    rw [hnc] at hc
    cases hc

theorem c3_resume_only_before_commit_witness :
    (3 : Nat) < 10
    ∧ "a.csv" ∈ processed_files_of ["a.npy"]
    ∧ build_flat (flat_durable_after [fileG] 3) [fileG] = build_flat [] [fileG]
    ∧ "a.csv" ∉ embed_files_to_process ["a.npy"] ["a.csv"] := by
  refine ⟨by decide, by decide, ?_, ?_⟩
  · exact (c3_resume_only_before_commit [fileG] 3 (by decide) ["a.npy"] ["a.csv"] "a.csv").1
  · exact (c3_resume_only_before_commit [fileG] 3 (by decide) ["a.npy"] ["a.csv"] "a.csv").2
      (by decide)

/-- Boolean success test for closed statements about `Except` results. -/
def is_ok {ε α : Type} : Except ε α → Bool
  | .ok _ => true
  | .error _ => false

/-- Ten loadable one-row files: processing all ten triggers the
`(file_idx + 1) % 10 == 0` commit, so ten rows (ids 0–9) are durable. -/
def c3Files : List SourceFile := List.replicate 10 fileG

/-- C3 counterexample: after an interrupted flat build over ten files is killed
right after its first periodic commit, the restarted build does not skip the
committed files — it restarts `global_idx` at 0 and dies with a duplicate
primary-key error, while the uninterrupted run succeeds with 10 vectors and 10
metadata rows.  The resumed rerun therefore does not reach the final counts of
an uninterrupted run, refuting resume idempotence at file granularity. -/
theorem c3_counterexample :
    build_flat (flat_durable_after c3Files 10) c3Files =
      .error "UNIQUE constraint failed: documents.idx"
    ∧ is_ok (build_flat [] c3Files) = true
    ∧ (build_flat [] c3Files).map (fun p => ((p.1).nVecs, (p.1).db.length)) = .ok (10, 10) := by
  refine ⟨by decide, by decide, by decide⟩

/-! ## C7: per-file rejection and the completion report -/

theorem ingest_files_cons (s : IngestState) (f : SourceFile) (fs : List SourceFile) :
    ingest_files s (f :: fs) =
      match load_file_embeddings_and_meta f with
      | none => ingest_files s fs
      | some (embs, rows) =>
          match insertMany s.db (dbBatch s.gidx rows) with
          | .error e => .error e
          | .ok db2 =>
              ingest_files { batches := s.batches ++ [embs.length], db := db2,
                             gidx := s.gidx + rows.length } fs := rfl

theorem ingest_files_append : ∀ (xs ys : List SourceFile) (s : IngestState),
    ingest_files s (xs ++ ys) =
      match ingest_files s xs with
      | .error e => .error e
      | .ok t => ingest_files t ys := by
  intro xs
  induction xs with
  | nil => intro ys s; rfl
  | cons f fs ih =>
      intro ys s
      rw [List.cons_append]
      simp only [ingest_files_cons]
      cases hload : load_file_embeddings_and_meta f with
      | none =>
          simp only [hload]
          exact ih ys s
      | some val =>
          obtain ⟨embs, rows⟩ := val
          simp only [hload]
          cases hins : insertMany s.db (dbBatch s.gidx rows) with
          | error e => simp [hins]
          | ok db2 =>
              simp only [hins]
              exact ih ys _

theorem ingest_files_skip (xs ys : List SourceFile) (f : SourceFile) (s : IngestState)
    (hf : load_file_embeddings_and_meta f = none) :
    ingest_files s (xs ++ f :: ys) = ingest_files s (xs ++ ys) := by
  rw [ingest_files_append, ingest_files_append]
  cases ingest_files s xs with
  | error e => rfl
  | ok t =>
      show ingest_files t (f :: ys) = ingest_files t ys
      rw [ingest_files_cons]
      simp only [hf]

/-- C7 (amended): during a build, every source file whose paired metadata CSV
is missing, or whose metadata row count differs from its embedding vector
count, contributes zero vectors to the index and zero rows to the metadata
store — removing such a file from the input changes nothing in the build's
data — and the build continues over the remaining files rather than aborting;
but on completion the builder reports only the final total vector count (the
`"Index built: n vectors"` line), not separate counts of processed, skipped
and errored files. -/
theorem c7_skip_and_report (db0 : List DbRow) (xs ys : List SourceFile) (f : SourceFile)
    (hf : load_file_embeddings_and_meta f = none) :
    build_flat_data db0 (xs ++ f :: ys) = build_flat_data db0 (xs ++ ys)
    ∧ (∀ files o lg, build_flat db0 files = .ok (o, lg) →
        ∃ lg0, lg = lg0 ++ [.creatingIndex, .built o.nVecs]) := by
  constructor
  · rw [build_flat_data_eq, build_flat_data_eq, ingest_files_skip _ _ _ _ hf]
  · intro files o lg h
    unfold build_flat at h
    split at h
    · cases h
    · rename_i s lg0 heq
      split at h
      · cases h
      · rename_i o2 heq2
        cases h
        refine ⟨lg0, ?_⟩
        unfold flat_finish at heq2
        split at heq2
        · cases heq2
        · cases heq2
          rfl

/-- A source file whose paired CSV is missing (skipped by every build). -/
def fileBad : SourceFile :=
  { fileName := "z.npy", embeddings := [[3]], csvExists := false, readable := true,
    csvRows := [rowC] }

theorem c7_skip_and_report_witness :
    load_file_embeddings_and_meta fileBad = none
    ∧ build_flat_data [] [fileG, fileBad] = build_flat_data [] [fileG] := by
  refine ⟨by decide, ?_⟩
  exact (c7_skip_and_report [] [fileG] [] fileBad (by decide)).1

/-- A loadable file carrying two rows. -/
def fileG2 : SourceFile :=
  { fileName := "g.npy", embeddings := [[1], [2]], csvExists := true, readable := true,
    csvRows := [rowC, rowC] }

/-- Number of input files the build skips (their loader returns nothing). -/
def skipped_count (files : List SourceFile) : Nat :=
  (files.filter (fun f => (load_file_embeddings_and_meta f).isNone)).length

/-- Number of input files the build ingests. -/
def processed_count (files : List SourceFile) : Nat :=
  (files.filter (fun f => (load_file_embeddings_and_meta f).isSome)).length

/-- One two-row file: 1 file processed, 0 skipped. -/
def filesC7A : List SourceFile := [fileG2]

/-- Two one-row files plus a file with no CSV: 2 processed, 1 skipped. -/
def filesC7B : List SourceFile := [fileG, fileG, fileBad]

/-- C7 counterexample: the complete print log of `_build_flat` (including its
completion report) is identical for two runs with different numbers of
processed and skipped files — the run's output is not a function of those
counts, so the builder cannot and does not report counts of processed, skipped
and errored files on completion; it reports only the vector total. -/
theorem c7_counterexample :
    (build_flat [] filesC7B).map Prod.snd = (build_flat [] filesC7A).map Prod.snd
    ∧ skipped_count filesC7B = 1
    ∧ skipped_count filesC7A = 0
    ∧ processed_count filesC7B ≠ processed_count filesC7A := by
  refine ⟨by decide, by decide, by decide, by decide⟩

/-! ## C8: the four result lists stay parallel -/

/-- The four result lists of a search output have one common length. -/
def parallel_lists {μ : Type} (r : SearchOut μ) : Prop :=
  r.ids.length = r.documents.length ∧ r.ids.length = r.metadatas.length ∧
    r.ids.length = r.distances.length

theorem faiss_fold_lengths (db : Int → Option DbRow) (lt : String → Nat → String) :
    ∀ (l : List (ℚ × Int)) (acc : SearchOut SearchMetaFull),
    parallel_lists acc →
    parallel_lists (l.foldl (faiss_search_step db lt) acc)
    ∧ (l.foldl (faiss_search_step db lt) acc).ids.length ≤ acc.ids.length + l.length := by
  intro l
  induction l with
  | nil => intro acc h; exact ⟨h, by simp⟩
  | cons p l ih =>
      intro acc h
      simp only [List.foldl_cons]
      cases hdb : db p.2 with
      | none =>
          have hstep : faiss_search_step db lt acc p = acc := by
            unfold faiss_search_step
            rw [hdb]
          rw [hstep]
          obtain ⟨h1, h2⟩ := ih acc h
          refine ⟨h1, ?_⟩
          simp only [List.length_cons]
          omega
      | some row =>
          obtain ⟨ih1, ih2⟩ := ih (faiss_search_step db lt acc p) (by
            unfold faiss_search_step
            rw [hdb]
            exact ⟨by simp [h.1], by simp [h.2.1], by simp [h.2.2]⟩)
          refine ⟨ih1, ?_⟩
          have hlen : (faiss_search_step db lt acc p).ids.length = acc.ids.length + 1 := by
            unfold faiss_search_step
            rw [hdb]
            simp
          rw [hlen] at ih2
          simp only [List.length_cons]
          omega

theorem lite_fold_lengths (db : Int → Option LiteDbRow) :
    ∀ (l : List (ℚ × Int)) (acc : SearchOut SearchMetaLite),
    parallel_lists acc →
    parallel_lists (l.foldl (lite_search_step db) acc)
    ∧ (l.foldl (lite_search_step db) acc).ids.length ≤ acc.ids.length + l.length := by
  intro l
  induction l with
  | nil => intro acc h; exact ⟨h, by simp⟩
  | cons p l ih =>
      intro acc h
      simp only [List.foldl_cons]
      cases hdb : db p.2 with
      | none =>
          have hstep : lite_search_step db acc p = acc := by
            unfold lite_search_step
            rw [hdb]
          rw [hstep]
          obtain ⟨h1, h2⟩ := ih acc h
          refine ⟨h1, ?_⟩
          simp only [List.length_cons]
          omega
      | some row =>
          obtain ⟨ih1, ih2⟩ := ih (lite_search_step db acc p) (by
            unfold lite_search_step
            rw [hdb]
            exact ⟨by simp [h.1], by simp [h.2.1], by simp [h.2.2]⟩)
          refine ⟨ih1, ?_⟩
          have hlen : (lite_search_step db acc p).ids.length = acc.ids.length + 1 := by
            unfold lite_search_step
            rw [hdb]
            simp
          rw [hlen] at ih2
          simp only [List.length_cons]
          omega

/-- C8: every call to `search` — in both the full and the lite store — returns
four parallel lists of exactly equal length, and that common length is at most
the requested `n_results` (the length of the raw `index.search` output rows);
hits whose id has no metadata row, and the `-1` padding of an under-filled
index, are dropped from all four lists together. -/
theorem c8_search_parallel (db : Int → Option DbRow) (db_exists : Bool)
    (lt : String → Nat → String) (dbL : Int → Option LiteDbRow)
    (scores : List ℚ) (indices : List Int) (n : Nat)
    (h1 : scores.length = n) (h2 : indices.length = n) :
    (parallel_lists (FAISSVectorStore.search db db_exists lt scores indices)
      ∧ (FAISSVectorStore.search db db_exists lt scores indices).ids.length ≤ n)
    ∧ (parallel_lists (LiteVectorStore.search dbL scores indices)
      ∧ (LiteVectorStore.search dbL scores indices).ids.length ≤ n) := by
  have hval : ((scores.zip indices).filter (fun p => decide (0 ≤ p.2))).length ≤ n := by
    have hz : (scores.zip indices).length = n := by
      rw [List.length_zip, h1, h2]
      omega
    calc ((scores.zip indices).filter (fun p => decide (0 ≤ p.2))).length
        ≤ (scores.zip indices).length := List.length_filter_le _ _
      _ = n := hz
  constructor
  · simp only [FAISSVectorStore.search]
    split
    · exact ⟨⟨rfl, rfl, rfl⟩, by simp⟩
    · have hfold := faiss_fold_lengths db lt
        ((scores.zip indices).filter (fun p => decide (0 ≤ p.2)))
        ⟨[], [], [], []⟩ ⟨rfl, rfl, rfl⟩
      refine ⟨hfold.1, ?_⟩
      have := hfold.2
      simp only [List.length_nil, Nat.zero_add] at this
      exact le_trans this hval
  · simp only [LiteVectorStore.search]
    split
    · exact ⟨⟨rfl, rfl, rfl⟩, by simp⟩
    · have hfold := lite_fold_lengths dbL
        ((scores.zip indices).filter (fun p => decide (0 ≤ p.2)))
        ⟨[], [], [], []⟩ ⟨rfl, rfl, rfl⟩
      refine ⟨hfold.1, ?_⟩
      have := hfold.2
      simp only [List.length_nil, Nat.zero_add] at this
      exact le_trans this hval

/-- A one-row lite `documents` table lookup used by witnesses. -/
def dbLW : Int → Option LiteDbRow :=
  fun i => if i = 0 then some ⟨0, "a1", "Title", "1900-01-01", "Paper", "hello"⟩ else none

theorem c8_search_parallel_witness :
    ([(1 : ℚ)].length = 1 ∧ [(0 : Int)].length = 1)
    ∧ (parallel_lists (FAISSVectorStore.search dbW true (fun _ _ => "t") [1] [0])
        ∧ (FAISSVectorStore.search dbW true (fun _ _ => "t") [1] [0]).ids.length ≤ 1)
    ∧ (parallel_lists (LiteVectorStore.search dbLW [1] [0])
        ∧ (LiteVectorStore.search dbLW [1] [0]).ids.length ≤ 1) := by
  refine ⟨⟨rfl, rfl⟩, ?_, ?_⟩
  · exact (c8_search_parallel dbW true (fun _ _ => "t") dbLW [1] [0] 1 rfl rfl).1
  · exact (c8_search_parallel dbW true (fun _ _ => "t") dbLW [1] [0] 1 rfl rfl).2

/-! ## C10: lite-mode inline text is truncated to 1000 characters -/

theorem lite_batch_text_le : ∀ (g : Nat) (rows : List CsvRow) (r : LiteDbRow),
    r ∈ lite_batch g rows → r.chunk_text.length ≤ 1000 := by
  intro g rows
  induction rows generalizing g with
  | nil => intro r h; cases h
  | cons c cs ih =>
      intro r h
      rcases List.mem_cons.1 h with h | h
      · subst h
        exact pyTake_length_le _ _
      · exact ih (g + 1) r h

theorem build_lite_file_text_le {g : Nat} {f : SourceFile} {chosen : List Nat}
    {batch : List LiteDbRow} (h : build_lite_file g f chosen = some batch) :
    ∀ r ∈ batch, r.chunk_text.length ≤ 1000 := by
  unfold build_lite_file at h
  split at h
  · cases h
  · split at h
    · cases h
    · split at h
      · cases h
      · split at h
        · cases h
        · split at h
          · cases h
          · cases h
            exact fun r hr => lite_batch_text_le _ _ r hr

theorem build_lite_text_le : ∀ (files : List (SourceFile × List Nat)) (r : LiteDbRow),
    r ∈ build_lite files → r.chunk_text.length ≤ 1000 := by
  suffices haux : ∀ (files : List (SourceFile × List Nat)) (acc : List LiteDbRow × Nat),
      (∀ r ∈ acc.1, r.chunk_text.length ≤ 1000) →
      ∀ r ∈ (files.foldl
        (fun (acc : List LiteDbRow × Nat) p =>
          match build_lite_file acc.2 p.1 p.2 with
          | none => acc
          | some batch => (acc.1 ++ batch, acc.2 + batch.length)) acc).1,
      r.chunk_text.length ≤ 1000 by
    intro files r hr
    exact haux files ([], 0) (by simp) r hr
  intro files
  induction files with
  | nil => intro acc h; exact h
  | cons p fs ih =>
      intro acc hacc
      simp only [List.foldl_cons]
      cases hb : build_lite_file acc.2 p.1 p.2 with
      | none =>
          simp only [hb]
          exact ih acc hacc
      | some batch =>
          simp only [hb]
          apply ih
          intro r hr
          rcases List.mem_append.1 hr with h | h
          · exact hacc r h
          · exact build_lite_file_text_le hb r h

theorem lite_search_docs_le (rows : List LiteDbRow)
    (hrows : ∀ r ∈ rows, r.chunk_text.length ≤ 1000) :
    ∀ (l : List (ℚ × Int)) (acc : SearchOut SearchMetaLite),
    (∀ d ∈ acc.documents, d.length ≤ 1000) →
    ∀ d ∈ (l.foldl (lite_search_step (lite_db_lookup rows)) acc).documents,
      d.length ≤ 1000 := by
  intro l
  induction l with
  | nil => intro acc h; exact h
  | cons p l ih =>
      intro acc hacc
      simp only [List.foldl_cons]
      cases hdb : lite_db_lookup rows p.2 with
      | none =>
          have hstep : lite_search_step (lite_db_lookup rows) acc p = acc := by
            unfold lite_search_step
            rw [hdb]
          rw [hstep]
          exact ih acc hacc
      | some row =>
          apply ih
          intro d hd
          have hstep : (lite_search_step (lite_db_lookup rows) acc p).documents =
              acc.documents ++ [pyOr row.chunk_text ""] := by
            unfold lite_search_step
            rw [hdb]
          rw [hstep] at hd
          rcases List.mem_append.1 hd with h | h
          · exact hacc d h
          · have hd2 : d = pyOr row.chunk_text "" := by simpa using h
            subst hd2
            have hrow : row ∈ rows :=
              List.mem_of_find?_eq_some (by simpa [lite_db_lookup] using hdb)
            exact le_trans (pyOr_empty_length _) (hrows row hrow)

/-- C10: the chunk text stored inline by the lite build is truncated to at most
1000 characters per row, so every document string returned by
`LiteVectorStore.search` over a lite-built table has length at most 1000,
regardless of the original chunk's length. -/
theorem c10_lite_documents_bounded (files : List (SourceFile × List Nat))
    (scores : List ℚ) (indices : List Int) :
    (∀ r ∈ build_lite files, r.chunk_text.length ≤ 1000)
    ∧ (∀ d ∈ (LiteVectorStore.search (lite_db_lookup (build_lite files))
          scores indices).documents, d.length ≤ 1000) := by
  refine ⟨fun r hr => build_lite_text_le files r hr, ?_⟩
  intro d hd
  simp only [LiteVectorStore.search] at hd
  split at hd
  · simp at hd
  · exact lite_search_docs_le (build_lite files)
      (fun r hr => build_lite_text_le files r hr) _ ⟨[], [], [], []⟩ (by simp) d hd

theorem c10_lite_documents_bounded_witness :
    "some text" ∈ (LiteVectorStore.search (lite_db_lookup (build_lite [(fileG, [0])]))
        [1] [0]).documents
    ∧ "some text".length ≤ 1000 := by
  refine ⟨by decide, ?_⟩
  exact (c10_lite_documents_bounded [(fileG, [0])] [1] [0]).2 "some text" (by decide)
